import Mathlib

/-!
Verification of the scheduling and deduplication core of the
Coding-Contest-Reminders repository.

The embedding models:
  * datetimes as integer epoch seconds, either timezone-aware (an absolute
    instant) or naive (wall-clock seconds with no timezone attached);
  * a timezone as a fixed UTC offset in seconds (pytz localize attaches the
    offset to a naive datetime);
  * the module-level SCHEDULED_KEYS set together with the one-shot jobs held
    by the APScheduler engine as a small state machine (SchedState, Step);
  * make_job_id, schedule_event, schedule_from_fetcher, get_default_phone and
    the weekly-reminder installation from src/scheduler_main.py;
  * read_contests from src/helpers.py;
  * the deduplication stage of fetch_all from src/fetchers.py.

External library functions that the repository calls but does not define
(dateutil.parser.isoparse, datetime.isoformat) are modelled from the spec,
as marked on their doc comments.
-/

/-- A timezone, modelled as a fixed UTC offset in seconds east of UTC. -/
structure Tz where
  offset : Int
deriving DecidableEq

/-- A Python datetime: either timezone-aware (stored as the absolute instant,
epoch seconds) or naive (wall-clock seconds with no timezone). All aware
datetimes produced by the fetchers are normalized to UTC, so an instant
determines the aware value. -/
inductive DT where
  | aware (epoch : Int)
  | naive (wall : Int)
deriving DecidableEq

/-- Subtracting a timedelta of the given number of seconds from a datetime
keeps its awareness (timedelta subtraction preserves tzinfo). -/
def DT.subSeconds : DT → Int → DT
  | DT.aware e, n => DT.aware (e - n)
  | DT.naive w, n => DT.naive (w - n)

/-- The absolute instant of a datetime: an aware datetime is its own instant;
a naive one is localized by attaching the timezone (pytz localize), so its
instant is the wall-clock value minus the UTC offset. -/
def toAware (tz : Tz) : DT → Int
  | DT.aware e => e
  | DT.naive w => w - tz.offset

/-- Normalization performed by the callers of schedule_event: a naive datetime
is localized with tz.localize, an aware one is converted with astimezone
(which preserves the instant). -/
def normalizeDT (tz : Tz) : DT → DT
  | DT.naive w => DT.aware (w - tz.offset)
  | DT.aware e => DT.aware e

/-- Modelled from the spec: datetime.isoformat, the "start_time ISO
representation" used as part of the deduplication key. The repository calls
the library function only to obtain a string key, so it is modelled as an
injective, never-empty rendering of the datetime value. -/
def DT.isoformat : DT → String
  | DT.aware e => "aware:" ++ toString e
  | DT.naive w => "naive:" ++ toString w

/-- Value of a single decimal digit character. -/
def digitVal (c : Char) : Option Nat :=
  if c.isDigit then some (c.toNat - 48) else none

/-- Two decimal digit characters as a number. -/
def twoDigits (a b : Char) : Option Nat :=
  match digitVal a, digitVal b with
  | some x, some y => some (x * 10 + y)
  | _, _ => none

/-- Four decimal digit characters as a number. -/
def fourDigits (a b c d : Char) : Option Nat :=
  match digitVal a, digitVal b, digitVal c, digitVal d with
  | some x, some y, some z, some w => some (x * 1000 + y * 100 + z * 10 + w)
  | _, _, _, _ => none

/-- Gregorian leap-year test. -/
def isLeap (y : Int) : Bool :=
  (y % 4 == 0 && y % 100 != 0) || y % 400 == 0

/-- Days in a Gregorian month. -/
def daysInMonth (y : Int) (m : Nat) : Nat :=
  match m with
  | 1 => 31
  | 2 => if isLeap y then 29 else 28
  | 3 => 31
  | 4 => 30
  | 5 => 31
  | 6 => 30
  | 7 => 31
  | 8 => 31
  | 9 => 30
  | 10 => 31
  | 11 => 30
  | 12 => 31
  | _ => 0

/-- Days from 1970-01-01 to the given civil date (proleptic Gregorian). -/
def daysFromCivil (y m d : Int) : Int :=
  let y' := if m ≤ 2 then y - 1 else y
  let era := (if 0 ≤ y' then y' else y' - 399) / 400
  let yoe := y' - era * 400
  let mp := (m + 9) % 12
  let doy := (153 * mp + 2) / 5 + d - 1
  let doe := yoe * 365 + yoe / 4 - yoe / 100 + doy
  era * 146097 + doe - 719468

/-- Build a datetime from validated civil fields; off is the parsed UTC
offset (none for a naive timestamp). -/
def mkDT (y mo d h mi sec : Nat) (off : Option Int) : Option DT :=
  if 1 ≤ mo ∧ mo ≤ 12 ∧ 1 ≤ d ∧ d ≤ daysInMonth (Int.ofNat y) mo
      ∧ h ≤ 23 ∧ mi ≤ 59 ∧ sec ≤ 59 then
    let total : Int := daysFromCivil (Int.ofNat y) (Int.ofNat mo) (Int.ofNat d) * 86400
      + Int.ofNat h * 3600 + Int.ofNat mi * 60 + Int.ofNat sec
    match off with
    | none => some (DT.naive total)
    | some o => some (DT.aware (total - o))
  else none

/-- Trailing timezone designator of an ISO-8601 timestamp: absent (naive),
the UTC designator, or a numeric offset. -/
def parseOffset : List Char → Option (Option Int)
  | [] => some none
  | ['Z'] => some (some 0)
  | ['+', a, b, ':', c, d] =>
    match twoDigits a b, twoDigits c d with
    | some h, some m =>
      if h ≤ 23 ∧ m ≤ 59 then some (some (Int.ofNat h * 3600 + Int.ofNat m * 60)) else none
    | _, _ => none
  | ['-', a, b, ':', c, d] =>
    match twoDigits a b, twoDigits c d with
    | some h, some m =>
      if h ≤ 23 ∧ m ≤ 59 then some (some (-(Int.ofNat h * 3600 + Int.ofNat m * 60))) else none
    | _, _ => none
  | _ => none

/-- Modelled from the spec: dateutil.parser.isoparse (library code not in the
repository), which read_contests uses on the start_iso column, an "ISO-8601
timestamp, timezone-aware or naive". Accepts a date with an optional time and
an optional UTC designator or numeric offset; anything else fails. -/
def isoparse (s : String) : Option DT :=
  match s.data with
  | [y1, y2, y3, y4, '-', m1, m2, '-', d1, d2] =>
    match fourDigits y1 y2 y3 y4, twoDigits m1 m2, twoDigits d1 d2 with
    | some y, some mo, some d => mkDT y mo d 0 0 0 none
    | _, _, _ => none
  | y1 :: y2 :: y3 :: y4 :: '-' :: m1 :: m2 :: '-' :: d1 :: d2 :: 'T' ::
      h1 :: h2 :: ':' :: n1 :: n2 :: ':' :: s1 :: s2 :: rest =>
    match fourDigits y1 y2 y3 y4, twoDigits m1 m2, twoDigits d1 d2,
        twoDigits h1 h2, twoDigits n1 n2, twoDigits s1 s2, parseOffset rest with
    | some y, some mo, some d, some h, some mi, some sec, some off =>
      mkDT y mo d h mi sec off
    | _, _, _, _, _, _, _ => none
  | _ => none

/-- A raw row of contests.csv as seen by csv.DictReader: the title, start_iso
and phone column values (an absent or empty title cell is the empty string). -/
structure Row where
  title : String
  start_iso : String
  phone : String
deriving DecidableEq

/-- A parsed manual contest as yielded by read_contests. -/
structure Contest where
  title : String
  start_dt : DT
  phone : String
deriving DecidableEq

/-- Python str.strip on a character list: drop whitespace from both ends. -/
def stripChars (cs : List Char) : List Char :=
  ((cs.dropWhile Char.isWhitespace).reverse.dropWhile Char.isWhitespace).reverse

/-- Python str.strip. -/
def pstrip (s : String) : String :=
  ⟨stripChars s.data⟩

/-- read_contests from src/helpers.py: skip a row with a falsy title, strip
the fields, skip (with a logged error) a row whose start_iso fails to parse,
and yield the parsed rows in order. -/
def read_contests : List Row → List Contest
  | [] => []
  | r :: rest =>
    if r.title = "" then read_contests rest
    else
      match isoparse (pstrip r.start_iso) with
      | none => read_contests rest
      | some sd => ⟨pstrip r.title, sd, pstrip r.phone⟩ :: read_contests rest

/-- Python truthiness test for an optional string: None and the empty string
are falsy. -/
def falsy : Option String → Bool
  | none => true
  | some s => s == ""

/-- Python `a or b` on optional strings: b when a is falsy, else a. -/
def pyOr (a b : Option String) : Option String :=
  if falsy a then b else a

/-- First truthy phone among the parsed contests (the loop body of
get_default_phone). -/
def firstTruthyPhone : List Contest → Option String
  | [] => none
  | c :: rest => if c.phone = "" then firstTruthyPhone rest else some c.phone

/-- get_default_phone from src/scheduler_main.py: the DEFAULT_PHONE
environment value if truthy, else the first truthy phone of the parsed CSV
rows; csvOk is false when reading the CSV raises (the except path). -/
def get_default_phone (env : Option String) (csvOk : Bool) (rows : List Row) : Option String :=
  if falsy env then
    if csvOk then firstTruthyPhone (read_contests rows) else none
  else env

/-- The per-event recipient resolution inside schedule_from_fetcher:
`phone = default_phone or os.getenv("DEFAULT_PHONE")`, and if that is falsy,
the phone of the first parsed CSV row (whatever it is), the previous falsy
value when the CSV yields no rows, or None when reading the CSV raises. -/
def resolve_phone (override env : Option String) (csvOk : Bool) (rows : List Row) : Option String :=
  let p := pyOr override env
  if falsy p then
    if csvOk then
      match (read_contests rows).head? with
      | some c => some c.phone
      | none => p
    else none
  else p

/-- A one-shot job registered with the execution engine: its id and its run
date (the instant at which it fires). -/
structure EngineJob where
  id : String
  run_date : Int
deriving DecidableEq

/-- The scheduling state: the module-level SCHEDULED_KEYS set and the one-shot
reminder jobs currently registered with the engine and not yet fired. -/
structure SchedState where
  keys : Finset String
  engineJobs : List EngineJob
deriving DecidableEq

/-- State at process start: SCHEDULED_KEYS = set() and a fresh engine. -/
def initState : SchedState := ⟨∅, []⟩

/-- Ids of the one-shot jobs currently registered with the engine. -/
def jobIds (st : SchedState) : List String :=
  st.engineJobs.map EngineJob.id

/-- make_job_id from src/scheduler_main.py: platform, title, the integer
timestamp of the given datetime, and phone, joined with the literal
separator. -/
def make_job_id (platform title : String) (epoch : Int) (phone : String) : String :=
  platform ++ "__" ++ title ++ "__" ++ toString epoch ++ "__" ++ phone

/-- The four logical outcomes of schedule_event. -/
inductive Outcome where
  | scheduled
  | skippedPast
  | skippedDuplicate
  | error
deriving DecidableEq

/-- schedule_event from src/scheduler_main.py. `ef` is true when the
engine's add_job call raises for an external reason; add_job also raises on a
colliding job id. `now` is the current instant. The Python function returns
None on every path; the Outcome records which path was taken. An add_job
exception is caught inside the function, so the model is a total function
(no failure propagates to the caller). -/
def schedule_event (st : SchedState) (ef : Bool) (platform title : String)
    (start_dt : DT) (phone : String) (tz : Tz) (now : Int) : SchedState × Outcome :=
  let remind := toAware tz (start_dt.subSeconds 300)
  if remind ≤ now then (st, Outcome.skippedPast)
  else
    let job_id := make_job_id platform title remind phone
    if job_id ∈ st.keys then (st, Outcome.skippedDuplicate)
    else if ef ∨ job_id ∈ jobIds st then (st, Outcome.error)
    else (⟨insert job_id st.keys, ⟨job_id, remind⟩ :: st.engineJobs⟩, Outcome.scheduled)

/-- The body of the one-shot job closure firing: the engine removes the job,
send_template runs, and SCHEDULED_KEYS.discard(job_id) runs only after the
send returns; when the send raises, the discard line is never reached and the
key stays in the registry. -/
def fire_job (st : SchedState) (job_id : String) (sendRaises : Bool) : SchedState :=
  if sendRaises then
    ⟨st.keys, st.engineJobs.filter (fun j => j.id != job_id)⟩
  else
    ⟨st.keys.erase job_id, st.engineJobs.filter (fun j => j.id != job_id)⟩

/-- One step of the scheduling system: either some caller invokes
schedule_event (with any arguments, at any current time, with the engine
possibly failing), or a registered one-shot job fires (with the notification
send possibly raising). -/
inductive Step : SchedState → SchedState → Prop
  | sched {st : SchedState} (ef : Bool) (platform title : String) (start_dt : DT)
      (phone : String) (tz : Tz) (now : Int) :
      Step st (schedule_event st ef platform title start_dt phone tz now).1
  | fire {st : SchedState} (job_id : String) (sendRaises : Bool)
      (h : job_id ∈ jobIds st) :
      Step st (fire_job st job_id sendRaises)

/-- Steps in which every notification send returns (successfully or not at
the HTTP level) instead of raising. -/
inductive StepOk : SchedState → SchedState → Prop
  | sched {st : SchedState} (ef : Bool) (platform title : String) (start_dt : DT)
      (phone : String) (tz : Tz) (now : Int) :
      StepOk st (schedule_event st ef platform title start_dt phone tz now).1
  | fire {st : SchedState} (job_id : String) (h : job_id ∈ jobIds st) :
      StepOk st (fire_job st job_id false)

/-- States reachable from process start. -/
def Reachable (st : SchedState) : Prop :=
  Relation.ReflTransGen Step initState st

/-- States reachable from process start when no send ever raises. -/
def ReachableOk (st : SchedState) : Prop :=
  Relation.ReflTransGen StepOk initState st

/-- A normalized fetched event as produced by the fetchers: platform, title,
start datetime (None when the source is degraded) and url. -/
structure Event where
  platform : String
  title : String
  start_dt : Option DT
  url : String
deriving DecidableEq

/-- The deduplication key of fetch_all: platform, title, and the ISO
representation of the start datetime, with an empty-string placeholder when
the start datetime is missing. -/
def dedupKey (e : Event) : String × String × String :=
  (e.platform, e.title,
    match e.start_dt with
    | some d => d.isoformat
    | none => "")

/-- The dict-building loop of fetch_all: walk the events in order, keep an
event whose key was not seen before, drop later duplicates. Insertion order
of a Python dict preserves the first occurrences in order. -/
def dedupeEvents : List Event → List (String × String × String) → List Event
  | [], _ => []
  | e :: rest, seen =>
    if dedupKey e ∈ seen then dedupeEvents rest seen
    else e :: dedupeEvents rest (dedupKey e :: seen)

/-- fetch_all from src/fetchers.py, parameterized by the concatenation of the
three sources' event lists (the network fetch itself is an external
collaborator): deduplicate by (platform, title, start ISO representation). -/
def fetch_all (events : List Event) : List Event :=
  dedupeEvents events []

/-- schedule_from_fetcher from src/scheduler_main.py: for each fetched event
resolve the recipient (per-call override, else environment default, else the
first parsed CSV row's phone); a falsy resolution aborts the whole pass with
a warning; otherwise normalize the start datetime and schedule the event.
The result is none when the loop raises (an event carrying no start datetime
makes the tzinfo attribute access raise); otherwise the final state and the
per-event outcomes. -/
def schedule_from_fetcher (st : SchedState) (ef : Bool) (events : List Event)
    (override env : Option String) (csvOk : Bool) (rows : List Row)
    (tz : Tz) (now : Int) : Option (SchedState × List Outcome) :=
  match events with
  | [] => some (st, [])
  | e :: rest =>
    let phone := resolve_phone override env csvOk rows
    if falsy phone then some (st, [])
    else
      match e.start_dt with
      | none => none
      | some sd =>
        let r := schedule_event st ef e.platform e.title (normalizeDT tz sd)
          (phone.getD "") tz now
        match schedule_from_fetcher r.1 ef rest override env csvOk rows tz now with
        | none => none
        | some q => some (q.1, r.2 :: q.2)

/-- The initial CSV pass of main (src/scheduler_main.py lines 99-106): parse
the rows, localize a naive start, and schedule each with platform "Manual"
and the row's own phone. -/
def schedule_manual (st : SchedState) (ef : Bool) (rows : List Row)
    (tz : Tz) (now : Int) : SchedState :=
  (read_contests rows).foldl
    (fun s c =>
      (schedule_event s ef "Manual" c.title (normalizeDT tz c.start_dt) c.phone tz now).1)
    st

/-- A recurring cron-style job registered with the engine. -/
structure CronJob where
  id : String
  day_of_week : String
  hour : Nat
  minute : Nat
deriving DecidableEq

/-- The weekly-reminder installation of main (src/scheduler_main.py lines
117-135): with no resolvable phone, a warning and no jobs; otherwise both
add_job calls run inside a single try block, so a failure of the first call
installs nothing and a failure of the second leaves the first installed. -/
def install_weekly (phone : Option String) (fail1 fail2 : Bool) : List CronJob :=
  match phone with
  | none => []
  | some _ =>
    if fail1 then []
    else if fail2 then [⟨"weekly_leetcode", "sun", 7, 55⟩]
    else [⟨"weekly_leetcode", "sun", 7, 55⟩, ⟨"weekly_codechef", "wed", 19, 55⟩]

/-- The state part of schedule_event either is unchanged or gains exactly the
fresh job key in the registry and the corresponding one-shot engine job. -/
theorem schedule_event_state_cases (st : SchedState) (ef : Bool) (platform title : String)
    (start_dt : DT) (phone : String) (tz : Tz) (now : Int) :
    (schedule_event st ef platform title start_dt phone tz now).1 = st
    ∨ ((schedule_event st ef platform title start_dt phone tz now).1
        = ⟨insert (make_job_id platform title (toAware tz (start_dt.subSeconds 300)) phone) st.keys,
            ⟨make_job_id platform title (toAware tz (start_dt.subSeconds 300)) phone,
              toAware tz (start_dt.subSeconds 300)⟩ :: st.engineJobs⟩
        ∧ make_job_id platform title (toAware tz (start_dt.subSeconds 300)) phone ∉ st.keys) := by
  dsimp only [schedule_event]
  split_ifs with h1 h2 h3
  · exact Or.inl rfl
  · exact Or.inl rfl
  · exact Or.inl rfl
  · exact Or.inr ⟨rfl, h2⟩

/-- The registry/engine agreement is preserved along raise-free steps. -/
theorem stepOk_inv (a b : SchedState) (h : Relation.ReflTransGen StepOk a b)
    (ha : ∀ k, k ∈ a.keys ↔ k ∈ jobIds a) : ∀ k, k ∈ b.keys ↔ k ∈ jobIds b := by
  induction h with
  | refl => exact ha
  | tail _ hstep ih =>
    cases hstep with
    | sched ef platform title start_dt phone tz now =>
      rcases schedule_event_state_cases _ ef platform title start_dt phone tz now with
        hc | ⟨hc, _⟩
      · rw [hc]; exact ih
      · intro k
        rw [hc]
        have hik := ih k
        simp only [jobIds, List.map_cons, List.mem_cons, Finset.mem_insert] at hik ⊢
        rw [hik]
    | fire job_id hmem =>
      intro k
      have hik := ih k
      simp only [fire_job, if_neg (by simp : ¬ (false = true)), jobIds, List.mem_map,
        List.mem_filter, Finset.mem_erase, bne_iff_ne] at hik ⊢
      constructor
      · rintro ⟨hne, hk⟩
        obtain ⟨j, hj, hjk⟩ := hik.mp hk
        exact ⟨j, ⟨hj, by rw [hjk]; exact hne⟩, hjk⟩
      · rintro ⟨j, ⟨hj, hjne⟩, hjk⟩
        exact ⟨by rw [← hjk]; exact hjne, hik.mpr ⟨j, hj, hjk⟩⟩

/-- Claim C1 (counterexample): it is not the case that at every reachable
state a job key is in the registry exactly when a one-shot job with that id
is registered and unfired. After scheduling one reminder and letting it fire
with the notification send raising, the key is still in SCHEDULED_KEYS while
the engine no longer holds the job: the discard runs only after the send. -/
theorem scheduled_keys_invariant_cex :
    ¬ ∀ st : SchedState, Reachable st →
        ∀ k : String, (k ∈ st.keys ↔ k ∈ jobIds st) := by
  intro hcl
  have h1 : Step initState (schedule_event initState false "A" "T" (DT.aware 1000) "P" ⟨0⟩ 0).1 :=
    Step.sched false "A" "T" (DT.aware 1000) "P" ⟨0⟩ 0
  have h2 : Step (schedule_event initState false "A" "T" (DT.aware 1000) "P" ⟨0⟩ 0).1
      (fire_job (schedule_event initState false "A" "T" (DT.aware 1000) "P" ⟨0⟩ 0).1
        "A__T__700__P" true) :=
    Step.fire "A__T__700__P" true (by decide)
  have hr : Reachable (fire_job (schedule_event initState false "A" "T" (DT.aware 1000) "P" ⟨0⟩ 0).1
      "A__T__700__P" true) :=
    Relation.ReflTransGen.tail (Relation.ReflTransGen.single h1) h2
  have hkey := (hcl _ hr "A__T__700__P").mp (by decide)
  exact absurd hkey (by decide)

/-- Claim C1 (amended): at every state reachable while every fired job's
notification send returns (even with a failure status), a job key is in
SCHEDULED_KEYS exactly when a one-shot job with that id is registered with
the engine and has not fired; firing with a returning send removes the key
right after the send, while a raising send skips the removal and leaves the
registry untouched. -/
theorem scheduled_keys_invariant_amended (st : SchedState) (h : ReachableOk st) (k : String) :
    (k ∈ st.keys ↔ k ∈ jobIds st)
    ∧ (fire_job st k false).keys = st.keys.erase k
    ∧ (fire_job st k true).keys = st.keys := by
  refine ⟨stepOk_inv initState st h (by simp [initState, jobIds]) k, ?_, ?_⟩
  · simp [fire_job]
  · simp [fire_job]

/-- Witness for the amended claim C1, at the state reached by scheduling one
reminder. -/
theorem scheduled_keys_invariant_witness :
    (("A__T__700__P" ∈ (schedule_event initState false "A" "T" (DT.aware 1000) "P" ⟨0⟩ 0).1.keys)
      ↔ "A__T__700__P" ∈ jobIds (schedule_event initState false "A" "T" (DT.aware 1000) "P" ⟨0⟩ 0).1)
    ∧ (fire_job (schedule_event initState false "A" "T" (DT.aware 1000) "P" ⟨0⟩ 0).1
        "A__T__700__P" false).keys
      = (schedule_event initState false "A" "T" (DT.aware 1000) "P" ⟨0⟩ 0).1.keys.erase "A__T__700__P"
    ∧ (fire_job (schedule_event initState false "A" "T" (DT.aware 1000) "P" ⟨0⟩ 0).1
        "A__T__700__P" true).keys
      = (schedule_event initState false "A" "T" (DT.aware 1000) "P" ⟨0⟩ 0).1.keys :=
  scheduled_keys_invariant_amended _
    (Relation.ReflTransGen.single (StepOk.sched false "A" "T" (DT.aware 1000) "P" ⟨0⟩ 0))
    "A__T__700__P"

/-- Claim C2: whenever the computed reminder instant (start minus five
minutes, localized if naive) is at or before the current time, schedule_event
creates no engine job and leaves the registry unchanged, taking the
SKIPPED_PAST path. -/
theorem skipped_past_no_job (st : SchedState) (ef : Bool) (platform title : String)
    (start_dt : DT) (phone : String) (tz : Tz) (now : Int)
    (h : toAware tz (start_dt.subSeconds 300) ≤ now) :
    schedule_event st ef platform title start_dt phone tz now = (st, Outcome.skippedPast) := by
  dsimp only [schedule_event]
  rw [if_pos h]

/-- Witness for claim C2. -/
theorem skipped_past_no_job_witness :
    schedule_event initState false "Codeforces" "Round 1" (DT.aware 100) "+15550001111" ⟨0⟩ 500
      = (initState, Outcome.skippedPast) :=
  skipped_past_no_job initState false "Codeforces" "Round 1" (DT.aware 100) "+15550001111" ⟨0⟩ 500
    (by decide)

/-- Claim C3 (counterexample): a schedule call whose computed job key is
already in the registry does not return SKIPPED_DUPLICATE when the reminder
time has meanwhile passed; the past-check runs first and the call takes the
SKIPPED_PAST path instead. -/
theorem skipped_duplicate_cex :
    make_job_id "A" "T" (toAware ⟨0⟩ ((DT.aware 1000).subSeconds 300)) "P"
      ∈ (SchedState.mk {"A__T__700__P"} [⟨"A__T__700__P", 700⟩]).keys
    ∧ (schedule_event ⟨{"A__T__700__P"}, [⟨"A__T__700__P", 700⟩]⟩ false "A" "T"
        (DT.aware 1000) "P" ⟨0⟩ 800).2 ≠ Outcome.skippedDuplicate := by
  decide

/-- Claim C3 (amended): for a job key already present in the registry, a
second schedule call computing the same key performs no new engine
registration and leaves the registry unchanged; it returns SKIPPED_DUPLICATE
when the reminder time is still in the future, and SKIPPED_PAST when the
reminder time has already passed. -/
theorem skipped_duplicate_amended (st : SchedState) (ef : Bool) (platform title : String)
    (start_dt : DT) (phone : String) (tz : Tz) (now : Int)
    (h : make_job_id platform title (toAware tz (start_dt.subSeconds 300)) phone ∈ st.keys) :
    schedule_event st ef platform title start_dt phone tz now
      = (st, if toAware tz (start_dt.subSeconds 300) ≤ now then Outcome.skippedPast
              else Outcome.skippedDuplicate) := by
  dsimp only [schedule_event]
  by_cases hp : toAware tz (start_dt.subSeconds 300) ≤ now
  · rw [if_pos hp, if_pos hp]
  · rw [if_neg hp, if_neg hp, if_pos h]

/-- Witness for the amended claim C3. -/
theorem skipped_duplicate_amended_witness :
    schedule_event ⟨{"A__T__700__P"}, [⟨"A__T__700__P", 700⟩]⟩ false "A" "T"
        (DT.aware 1000) "P" ⟨0⟩ 0
      = (⟨{"A__T__700__P"}, [⟨"A__T__700__P", 700⟩]⟩, Outcome.skippedDuplicate) := by
  have h := skipped_duplicate_amended ⟨{"A__T__700__P"}, [⟨"A__T__700__P", 700⟩]⟩ false "A" "T"
    (DT.aware 1000) "P" ⟨0⟩ 0 (by decide)
  rw [h, if_neg (by decide)]

/-- Claim C10: the job key joins platform, title, reminder epoch and phone
with a literal separator and no escaping, so two events with distinct
(platform, title) pairs — one title containing the separator — and equal
reminder time and recipient collide on the key, and after the first is
scheduled the second is silently skipped as a duplicate. -/
theorem job_key_not_injective :
    (("A", "B__C") ≠ (("A__B", "C") : String × String))
    ∧ make_job_id "A" "B__C" 700 "P" = make_job_id "A__B" "C" 700 "P"
    ∧ (schedule_event initState false "A" "B__C" (DT.aware 1000) "P" ⟨0⟩ 0).2 = Outcome.scheduled
    ∧ schedule_event (schedule_event initState false "A" "B__C" (DT.aware 1000) "P" ⟨0⟩ 0).1
        false "A__B" "C" (DT.aware 1000) "P" ⟨0⟩ 0
      = ((schedule_event initState false "A" "B__C" (DT.aware 1000) "P" ⟨0⟩ 0).1,
          Outcome.skippedDuplicate) := by
  decide

/-- Normalizing with localize/astimezone before scheduling does not change the
reminder instant that schedule_event computes. -/
theorem toAware_normalize (tz : Tz) (sd : DT) :
    toAware tz ((normalizeDT tz sd).subSeconds 300) = toAware tz (sd.subSeconds 300) := by
  cases sd with
  | aware e => rfl
  | naive w =>
    simp only [normalizeDT, DT.subSeconds, toAware]
    omega

/-- When add_job raises and the computed key is fresh and in the future,
schedule_event returns ERROR with the state unchanged. -/
theorem schedule_event_engine_fails (st : SchedState) (platform title : String)
    (start_dt : DT) (phone : String) (tz : Tz) (now : Int)
    (h1 : now < toAware tz (start_dt.subSeconds 300))
    (h2 : make_job_id platform title (toAware tz (start_dt.subSeconds 300)) phone ∉ st.keys) :
    schedule_event st true platform title start_dt phone tz now = (st, Outcome.error) := by
  dsimp only [schedule_event]
  rw [if_neg (not_le.mpr h1), if_neg h2, if_pos (Or.inl rfl)]

/-- When add_job succeeds on a fresh future key, schedule_event registers the
one-shot job and inserts the key. -/
theorem schedule_event_success (st : SchedState) (platform title : String)
    (start_dt : DT) (phone : String) (tz : Tz) (now : Int)
    (h1 : now < toAware tz (start_dt.subSeconds 300))
    (h2 : make_job_id platform title (toAware tz (start_dt.subSeconds 300)) phone ∉ st.keys)
    (h3 : make_job_id platform title (toAware tz (start_dt.subSeconds 300)) phone ∉ jobIds st) :
    schedule_event st false platform title start_dt phone tz now
      = (⟨insert (make_job_id platform title (toAware tz (start_dt.subSeconds 300)) phone) st.keys,
          ⟨make_job_id platform title (toAware tz (start_dt.subSeconds 300)) phone,
            toAware tz (start_dt.subSeconds 300)⟩ :: st.engineJobs⟩, Outcome.scheduled) := by
  dsimp only [schedule_event]
  rw [if_neg (not_le.mpr h1), if_neg h2, if_neg ?_]
  rintro (hf | hm)
  · exact absurd hf (by simp)
  · exact h3 hm

/-- Claim C4: when registration with the engine fails (add_job raises),
schedule_event returns ERROR without inserting the job key, the exception is
caught inside schedule_event (the model is a total function), and the
scheduling pass of schedule_from_fetcher continues with the remaining
events. -/
theorem engine_failure_error (st : SchedState) (platform title : String)
    (start_dt : DT) (phone u : String) (tz : Tz) (now : Int) (rest : List Event)
    (ov env : Option String) (ok : Bool) (rows : List Row)
    (h1 : now < toAware tz (start_dt.subSeconds 300))
    (h2 : make_job_id platform title (toAware tz (start_dt.subSeconds 300)) phone ∉ st.keys)
    (hres : resolve_phone ov env ok rows = some phone) (hph : phone ≠ "") :
    schedule_event st true platform title start_dt phone tz now = (st, Outcome.error)
    ∧ schedule_from_fetcher st true (⟨platform, title, some start_dt, u⟩ :: rest)
        ov env ok rows tz now
      = (match schedule_from_fetcher st true rest ov env ok rows tz now with
          | none => none
          | some q => some (q.1, Outcome.error :: q.2)) := by
  have hse : schedule_event st true platform title (normalizeDT tz start_dt) phone tz now
      = (st, Outcome.error) := by
    apply schedule_event_engine_fails
    · rw [toAware_normalize]; exact h1
    · rw [toAware_normalize]; exact h2
  refine ⟨schedule_event_engine_fails st platform title start_dt phone tz now h1 h2, ?_⟩
  dsimp only [schedule_from_fetcher]
  rw [hres]
  rw [if_neg (by simp [falsy, hph])]
  rw [Option.getD_some, hse]

/-- Witness for claim C4. -/
theorem engine_failure_error_witness :
    schedule_event initState true "Codeforces" "Round 9" (DT.aware 1000) "+15550002222" ⟨0⟩ 0
      = (initState, Outcome.error) :=
  (engine_failure_error initState "Codeforces" "Round 9" (DT.aware 1000) "+15550002222" "u"
    ⟨0⟩ 0 [] (some "+15550002222") none false [] (by decide) (by decide) (by decide)
    (by decide)).1

/-- Claim C7 (counterexample): the weekly installer can install exactly one of
the two recurring jobs. Both add_job calls sit in a single try block, so when
the first call succeeds and the second raises, the LeetCode job stays
installed alone. -/
theorem weekly_installer_cex :
    ¬ ∀ (phone : Option String) (f1 f2 : Bool),
        (phone.isSome → (install_weekly phone f1 f2).length = 2)
        ∧ (phone = none → (install_weekly phone f1 f2).length = 0)
        ∧ (install_weekly phone f1 f2).length ≠ 1 := by
  intro h
  exact (h (some "+15551234567") false true).2.2 (by decide)

/-- Claim C7 (amended): with a resolvable recipient and both engine
registrations succeeding, the weekly installer registers exactly the two
recurring jobs, Sunday 07:55 and Wednesday 19:55 local time; with no
recipient it registers zero; and exactly one job (the Sunday one) remains
installed precisely when the first registration succeeds and the second
raises. -/
theorem weekly_installer_amended (p : String) (f1 f2 : Bool) :
    install_weekly (some p) false false
        = [⟨"weekly_leetcode", "sun", 7, 55⟩, ⟨"weekly_codechef", "wed", 19, 55⟩]
    ∧ install_weekly none f1 f2 = []
    ∧ ((install_weekly (some p) f1 f2).length = 1 ↔ f1 = false ∧ f2 = true) := by
  refine ⟨rfl, rfl, ?_⟩
  cases f1 <;> cases f2 <;> simp [install_weekly]

/-- Witness for the amended claim C7. -/
theorem weekly_installer_amended_witness :
    install_weekly (some "+15551234567") false false
        = [⟨"weekly_leetcode", "sun", 7, 55⟩, ⟨"weekly_codechef", "wed", 19, 55⟩]
    ∧ install_weekly none false true = []
    ∧ ((install_weekly (some "+15551234567") false true).length = 1
        ↔ false = false ∧ true = true) :=
  weekly_installer_amended "+15551234567" false true

/-- Claim C8: the recipient of the fetched-event pass is the per-call
override when truthy, else the environment default when truthy, else the
phone of the first parsed CSV row; and when the resolved value is falsy the
whole pass returns normally with a warning, zero registrations, and the
registry unchanged. -/
theorem recipient_resolution_order (ov env : Option String) (ok : Bool) (rows : List Row)
    (st : SchedState) (ef : Bool) (events : List Event) (tz : Tz) (now : Int) (c : Contest) :
    (falsy ov = false → resolve_phone ov env ok rows = ov)
    ∧ (falsy ov = true → falsy env = false → resolve_phone ov env ok rows = env)
    ∧ (falsy ov = true → falsy env = true → ok = true →
        (read_contests rows).head? = some c → resolve_phone ov env ok rows = some c.phone)
    ∧ (falsy (resolve_phone ov env ok rows) = true →
        schedule_from_fetcher st ef events ov env ok rows tz now = some (st, [])) := by
  refine ⟨?_, ?_, ?_, ?_⟩
  · intro h
    simp [resolve_phone, pyOr, h]
  · intro h1 h2
    simp [resolve_phone, pyOr, h1, h2]
  · intro h1 h2 h3 h4
    simp [resolve_phone, pyOr, h1, h2, h3, h4]
  · intro h
    cases events with
    | nil => rfl
    | cons e rest =>
      dsimp only [schedule_from_fetcher]
      rw [if_pos h]

/-- Witness for claim C8: the override wins when present, and with no
override, no environment default and a failing CSV read, the pass aborts with
no state change. -/
theorem recipient_resolution_order_witness :
    resolve_phone (some "+15551230000") (some "+15559990000") false [] = some "+15551230000"
    ∧ schedule_from_fetcher initState false [⟨"Codeforces", "R", some (DT.aware 0), "u"⟩]
        none none false [] ⟨0⟩ 0 = some (initState, []) := by
  constructor
  · exact (recipient_resolution_order (some "+15551230000") (some "+15559990000") false []
      initState false [] ⟨0⟩ 0 ⟨"t", DT.aware 0, "p"⟩).1 (by decide)
  · exact (recipient_resolution_order none none false [] initState false
      [⟨"Codeforces", "R", some (DT.aware 0), "u"⟩] ⟨0⟩ 0 ⟨"t", DT.aware 0, "p"⟩).2.2.2
      (by decide)

/-- Claim C6: the manual row with title "Div 2 Round", start
2025-01-01T10:00:00Z and phone +15551234567, processed while the current time
is before 2025-01-01T09:55:00Z (epoch 1735725300), produces exactly one
scheduled one-shot job, firing at 2025-01-01T09:55:00Z — five minutes before
the event's start. -/
theorem manual_round_trip (tz : Tz) (now : Int) (h : now < 1735725300) :
    (schedule_manual initState false
        [⟨"Div 2 Round", "2025-01-01T10:00:00Z", "+15551234567"⟩] tz now).engineJobs
      = [⟨"Manual__Div 2 Round__1735725300__+15551234567", 1735725300⟩]
    ∧ isoparse "2025-01-01T09:55:00Z" = some (DT.aware 1735725300)
    ∧ isoparse "2025-01-01T10:00:00Z" = some (DT.aware 1735725600) := by
  refine ⟨?_, by decide, by decide⟩
  have hread : read_contests [⟨"Div 2 Round", "2025-01-01T10:00:00Z", "+15551234567"⟩]
      = [⟨"Div 2 Round", DT.aware 1735725600, "+15551234567"⟩] := by decide
  have hrem : toAware tz ((DT.aware 1735725600).subSeconds 300) = 1735725300 := by
    show (1735725600 : Int) - 300 = 1735725300
    decide
  have hkey : make_job_id "Manual" "Div 2 Round"
      (toAware tz ((DT.aware 1735725600).subSeconds 300)) "+15551234567"
      = "Manual__Div 2 Round__1735725300__+15551234567" := by
    rw [hrem]
    decide
  dsimp only [schedule_manual]
  rw [hread]
  dsimp only [List.foldl, normalizeDT]
  rw [schedule_event_success initState "Manual" "Div 2 Round" (DT.aware 1735725600)
    "+15551234567" tz now (by rw [hrem]; exact h) (by simp [initState]) (by simp [initState, jobIds])]
  rw [hkey, hrem]
  rfl

/-- Witness for claim C6. -/
theorem manual_round_trip_witness :
    (schedule_manual initState false
        [⟨"Div 2 Round", "2025-01-01T10:00:00Z", "+15551234567"⟩] ⟨0⟩ 0).engineJobs
      = [⟨"Manual__Div 2 Round__1735725300__+15551234567", 1735725300⟩]
    ∧ isoparse "2025-01-01T09:55:00Z" = some (DT.aware 1735725300)
    ∧ isoparse "2025-01-01T10:00:00Z" = some (DT.aware 1735725600) :=
  manual_round_trip ⟨0⟩ 0 (by decide)

/-- The deduplicated list is a sublist of the input. -/
theorem dedupe_sublist (l : List Event) (seen : List (String × String × String)) :
    (dedupeEvents l seen).Sublist l := by
  induction l generalizing seen with
  | nil => simp [dedupeEvents]
  | cons e rest ih =>
    dsimp only [dedupeEvents]
    by_cases h : dedupKey e ∈ seen
    · rw [if_pos h]
      exact (ih seen).cons e
    · rw [if_neg h]
      exact (ih _).cons₂ e

/-- No retained event carries a key that was already seen. -/
theorem dedupe_notin_seen (l : List Event) :
    ∀ seen e', e' ∈ dedupeEvents l seen → dedupKey e' ∉ seen := by
  induction l with
  | nil =>
    intro seen e' h
    simp [dedupeEvents] at h
  | cons e rest ih =>
    intro seen e' h
    dsimp only [dedupeEvents] at h
    by_cases hk : dedupKey e ∈ seen
    · rw [if_pos hk] at h
      exact ih seen e' h
    · rw [if_neg hk] at h
      rcases List.mem_cons.mp h with rfl | h2
      · exact hk
      · intro hmem
        exact ih _ e' h2 (List.mem_cons_of_mem _ hmem)

/-- The retained events have pairwise distinct keys. -/
theorem dedupe_keys_nodup (l : List Event) :
    ∀ seen, ((dedupeEvents l seen).map dedupKey).Nodup := by
  induction l with
  | nil =>
    intro seen
    simp [dedupeEvents]
  | cons e rest ih =>
    intro seen
    dsimp only [dedupeEvents]
    by_cases hk : dedupKey e ∈ seen
    · rw [if_pos hk]
      exact ih seen
    · rw [if_neg hk]
      simp only [List.map_cons, List.nodup_cons]
      refine ⟨?_, ih _⟩
      intro hmem
      rcases List.mem_map.mp hmem with ⟨e', he', hkey⟩
      have hni := dedupe_notin_seen rest _ e' he'
      exact hni (by rw [hkey]; exact List.mem_cons_self _ _)

/-- Every unseen key of the input is represented among the retained events. -/
theorem dedupe_covers (l : List Event) :
    ∀ seen e, e ∈ l → dedupKey e ∉ seen →
      ∃ e', e' ∈ dedupeEvents l seen ∧ dedupKey e' = dedupKey e := by
  induction l with
  | nil =>
    intro seen e h
    simp at h
  | cons x rest ih =>
    intro seen e he hns
    dsimp only [dedupeEvents]
    by_cases hk : dedupKey x ∈ seen
    · rw [if_pos hk]
      rcases List.mem_cons.mp he with rfl | h2
      · exact absurd hk hns
      · exact ih seen e h2 hns
    · rw [if_neg hk]
      by_cases hxe : dedupKey e = dedupKey x
      · exact ⟨x, List.mem_cons_self _ _, hxe.symm⟩
      · rcases List.mem_cons.mp he with rfl | h2
        · exact absurd rfl hxe
        · obtain ⟨e', he', hk'⟩ := ih (dedupKey x :: seen) e h2 (by
            intro hmem
            rcases List.mem_cons.mp hmem with h3 | h3
            · exact hxe h3
            · exact hns h3)
          exact ⟨e', List.mem_cons_of_mem _ he', hk'⟩

/-- The first occurrence of a key among the input is retained. -/
theorem dedupe_first_mem (pre : List Event) :
    ∀ (e : Event) (post : List Event) seen,
      dedupKey e ∉ seen → (∀ x ∈ pre, dedupKey x ≠ dedupKey e) →
      e ∈ dedupeEvents (pre ++ e :: post) seen := by
  induction pre with
  | nil =>
    intro e post seen hns _
    dsimp only [List.nil_append, dedupeEvents]
    rw [if_neg hns]
    exact List.mem_cons_self _ _
  | cons x pre ih =>
    intro e post seen hns hpre
    dsimp only [List.cons_append, dedupeEvents]
    by_cases hk : dedupKey x ∈ seen
    · rw [if_pos hk]
      exact ih e post seen hns (fun y hy => hpre y (List.mem_cons_of_mem _ hy))
    · rw [if_neg hk]
      refine List.mem_cons_of_mem _ ?_
      refine ih e post (dedupKey x :: seen) ?_ (fun y hy => hpre y (List.mem_cons_of_mem _ hy))
      intro hmem
      rcases List.mem_cons.mp hmem with h3 | h3
      · exact hpre x (List.mem_cons_self _ _) h3.symm
      · exact hns h3

/-- Claim C5: fetch_all's deduplication returns a subsequence of the fetched
events whose (platform, title, start ISO representation) keys are pairwise
distinct; every input key stays represented, the retained representative of a
key is its first occurrence, and an event with a missing start datetime is
keyed with the empty-string placeholder rather than dropped. -/
theorem fetch_all_dedup_spec (l : List Event) :
    ((fetch_all l).map dedupKey).Nodup
    ∧ (fetch_all l).Sublist l
    ∧ (∀ e, e ∈ l → ∃ e', e' ∈ fetch_all l ∧ dedupKey e' = dedupKey e)
    ∧ (∀ pre (e : Event) post, l = pre ++ e :: post →
        (∀ x, x ∈ pre → dedupKey x ≠ dedupKey e) → e ∈ fetch_all l)
    ∧ (∀ e : Event, e.start_dt = none → dedupKey e = (e.platform, e.title, "")) := by
  refine ⟨dedupe_keys_nodup l [], dedupe_sublist l [], ?_, ?_, ?_⟩
  · intro e he
    exact dedupe_covers l [] e he (by simp)
  · intro pre e post hl hpre
    rw [hl]
    exact dedupe_first_mem pre e post [] (by simp) (fun x hx => hpre x hx)
  · intro e he
    simp [dedupKey, he]

/-- Witness for claim C5: of two events differing only in url (same key), the
first is retained, and a missing start datetime yields the placeholder key. -/
theorem fetch_all_dedup_spec_witness :
    (⟨"Codeforces", "R", some (DT.aware 0), "u"⟩ : Event)
      ∈ fetch_all [⟨"Codeforces", "R", some (DT.aware 0), "u"⟩,
          ⟨"Codeforces", "R", some (DT.aware 0), "u2"⟩]
    ∧ dedupKey ⟨"Codeforces", "R", none, "u"⟩ = ("Codeforces", "R", "") :=
  ⟨(fetch_all_dedup_spec [⟨"Codeforces", "R", some (DT.aware 0), "u"⟩,
        ⟨"Codeforces", "R", some (DT.aware 0), "u2"⟩]).2.2.2.1
      [] ⟨"Codeforces", "R", some (DT.aware 0), "u"⟩
      [⟨"Codeforces", "R", some (DT.aware 0), "u2"⟩] rfl (by simp),
   (fetch_all_dedup_spec []).2.2.2.2 ⟨"Codeforces", "R", none, "u"⟩ rfl⟩

/-- Claim C9: in read_contests, a row with a missing title is skipped
silently and a row whose start_iso fails to parse is skipped with a logged
error; in both cases the remaining rows are still processed — removing the
bad row from the input yields the identical output. -/
theorem read_contests_skips_bad_rows (pre : List Row) (r : Row) (post : List Row) :
    (r.title = "" → read_contests (pre ++ r :: post) = read_contests (pre ++ post))
    ∧ (isoparse (pstrip r.start_iso) = none →
        read_contests (pre ++ r :: post) = read_contests (pre ++ post)) := by
  induction pre with
  | nil =>
    constructor
    · intro h
      simp [read_contests, h]
    · intro h
      by_cases ht : r.title = ""
      · simp [read_contests, ht]
      · simp [read_contests, ht, h]
  | cons x pre ih =>
    constructor
    · intro h
      simp only [List.cons_append, read_contests, List.append_eq]
      rw [ih.1 h]
    · intro h
      simp only [List.cons_append, read_contests, List.append_eq]
      rw [ih.2 h]

/-- Witness for claim C9: a titleless row and an unparseable row each vanish
from the output while the following good row is still parsed. -/
theorem read_contests_skips_bad_rows_witness :
    read_contests [⟨"", "2025-01-01T10:00:00Z", "+15551234567"⟩,
        ⟨"Good", "2025-01-01T10:00:00Z", "+15551234567"⟩]
      = read_contests [⟨"Good", "2025-01-01T10:00:00Z", "+15551234567"⟩]
    ∧ read_contests [⟨"Bad", "notadate", "+15551234567"⟩,
        ⟨"Good", "2025-01-01T10:00:00Z", "+15551234567"⟩]
      = read_contests [⟨"Good", "2025-01-01T10:00:00Z", "+15551234567"⟩] :=
  ⟨(read_contests_skips_bad_rows [] ⟨"", "2025-01-01T10:00:00Z", "+15551234567"⟩
      [⟨"Good", "2025-01-01T10:00:00Z", "+15551234567"⟩]).1 rfl,
   (read_contests_skips_bad_rows [] ⟨"Bad", "notadate", "+15551234567"⟩
      [⟨"Good", "2025-01-01T10:00:00Z", "+15551234567"⟩]).2 (by decide)⟩
